import Mathlib

/-!
Verification development for the dataset execution-tree scheduler
(`src/mindspore/ccsrc/dataset/engine/execution_tree.cc`).

The C++ class `ExecutionTree` is embedded shallowly: its fields become a
Lean structure, its methods become pure functions that take the tree (and
the operator node they act on) and return a `Status` together with the
updated tree/node.  External collaborators (the task group, the profiling
manager, the per-operator virtual hooks, the rewrite passes) are modelled
as explicit parameters or per-node data, as described at each definition.
-/

namespace MindsporeDataset

/-- Result type of the engine's fallible operations.  The C++ `Status`
carries a status code and a message; all failures produced in this file go
through `RETURN_STATUS_UNEXPECTED(msg)`, so an error is modelled as the
message it carries. -/
inductive Status where
  | ok : Status
  | error : String → Status
deriving DecidableEq, Repr

/-- The tree lifecycle states `kDeTStateInit`, `kDeTStateBuilding`,
`kDeTStatePrepare`, `kDeTStateReady`, `kDeTStateExecuting` used by
`ExecutionTree`. -/
inductive TreeState where
  | init : TreeState
  | building : TreeState
  | prepare : TreeState
  | ready : TreeState
  | executing : TreeState
deriving DecidableEq, Repr

/-- Modelled from the spec: the numeric value of each tree-state enum
constant (the enum declaration lives in `execution_tree.h`, which is not
part of the sources here).  The spec lists the lifecycle states in strict
forward order `Init → Building → Prepare → Ready → Executing`, so the
constants are numbered in that order.  These numbers appear in the
diagnostic strings built via `std::to_string(static_cast<int>(...))`. -/
def TreeState.toCInt : TreeState → Int
  | .init => 0
  | .building => 1
  | .prepare => 2
  | .ready => 3
  | .executing => 4

/-- Position of a state in the lifecycle order `Init, Building, Prepare,
Ready, Executing` (used to express forward/backward transitions). -/
def TreeState.order : TreeState → Nat
  | .init => 0
  | .building => 1
  | .prepare => 2
  | .ready => 3
  | .executing => 4

/-- Modelled from the spec: `DatasetOp::kInvalidOperatorId`, the sentinel
id an operator carries before it has been associated with a tree (the
constant is declared in `dataset_op.h`, not in the sources here; the spec
calls it the "invalid" sentinel value, distinct from every assigned id,
which start at 0). -/
def kInvalidOperatorId : Int := -1

/-- The per-operator data of a `DatasetOp` that `ExecutionTree` reads or
writes: `operator_id_`, the `tree_` back-reference (all claims concern a
single tree, so the pointer comparison `op->tree_ == this` is modelled as
the boolean `tree_is_this`), and the attributes consumed by launch and
prepare.  `inlined` models the `inlined()` query, `prep_flags` the value
returned by the operator's `PrepareFlags()` method.

Modelled from the spec: `PrepareNodePreAction`/`PrepareNodePostAction` are
virtual per-operator hooks (their implementations live in the operator
classes, not in the sources here); per the external-interface contract
they return a `Status`, so each node carries its hook results as the
fields `pre_status` and `post_status`. -/
structure OpInfo where
  operator_id : Int := kInvalidOperatorId
  tree_is_this : Bool := false
  inlined : Bool := false
  prep_flags : Nat := 0
  pre_status : Status := Status.ok
  post_status : Status := Status.ok
deriving Repr

/-- A `DatasetOp` node: its scalar fields plus the ordered `child_`
vector. -/
inductive OpNode where
  | mk : OpInfo → List OpNode → OpNode

/-- The scalar fields of a node. -/
def OpNode.info : OpNode → OpInfo
  | .mk i _ => i

/-- The ordered `child_` vector of a node. -/
def OpNode.children : OpNode → List OpNode
  | .mk _ cs => cs

/-- Embeds `DatasetOp::set_id`. -/
def OpNode.setId (n : OpNode) (id : Int) : OpNode :=
  .mk { n.info with operator_id := id } n.children

/-- Embeds `DatasetOp::set_tree` (records that `tree_` now points at this
tree). -/
def OpNode.setTree (n : OpNode) : OpNode :=
  .mk { n.info with tree_is_this := true } n.children

mutual
/-- Embeds `ExecutionTree::Iterator::PostOrderTraverse`: appends, to the
accumulated `nodes_` vector, first the postorder visit of every child in
stored order and then the node itself; a null node returns
immediately. -/
def PostOrderTraverse : Option OpNode → List OpNode → List OpNode
  | none, acc => acc
  | some (.mk i cs), acc => postOrderChildren cs acc ++ [OpNode.mk i cs]
termination_by node _ => sizeOf node
decreasing_by
  all_goals simp_wf
  all_goals omega

/-- The `for` loop of `PostOrderTraverse` over the `child_` vector. -/
def postOrderChildren : List OpNode → List OpNode → List OpNode
  | [], acc => acc
  | c :: rest, acc => postOrderChildren rest (PostOrderTraverse (some c) acc)
termination_by cs _ => sizeOf cs
decreasing_by
  all_goals simp_wf
  all_goals first
    | omega
    | (cases rest <;> simp <;> omega)
end

/-- Embeds `ExecutionTree::Iterator::Iterator(root)`: the `nodes_` vector after
construction — the postorder traversal of `root` followed by the single
null sentinel pushed by `nodes_.emplace_back(nullptr)`. -/
def iteratorNodes (root : Option OpNode) : List (Option OpNode) :=
  (PostOrderTraverse root []).map some ++ [none]

mutual
/-- Postorder of a tree stated directly from the spec's words: the
traversal "recursively visits all children left-to-right before the node
itself".  Used to compare the iterator's accumulator-based traversal
against the specified visit order. -/
def postOrder : OpNode → List OpNode
  | .mk i cs => postOrderList cs ++ [OpNode.mk i cs]
termination_by n => sizeOf n
decreasing_by
  all_goals simp_wf

/-- Concatenated postorder of a list of sibling subtrees, left to
right. -/
def postOrderList : List OpNode → List OpNode
  | [] => []
  | c :: rest => postOrder c ++ postOrderList rest
termination_by cs => sizeOf cs
decreasing_by
  all_goals simp_wf
  all_goals omega
end

/-- The `ExecutionTree` fields the engine's methods read or write:
`id_count_` (the next operator id), `tree_state_`, `prepare_flags_`, and
`root_`.  `profiling_enabled` models the answer of the external
`ProfilingManager::IsProfilingEnable()` collaborator, consulted by
`Launch`.  The task group, monitor and profiling manager objects
themselves are external collaborators; the tasks `Launch` asks the task
group to spawn are reported as an explicit event list instead. -/
structure ExecutionTree where
  id_count : Int
  tree_state : TreeState
  prepare_flags : Nat
  root : Option OpNode
  profiling_enabled : Bool

/-- Embeds the constructor `ExecutionTree::ExecutionTree()`: `id_count_(0)`, state
`kDeTStateInit`, flags `kDePrepNone` (no bits set), no root yet. -/
def ExecutionTree.new (profiling : Bool) : ExecutionTree :=
  { id_count := 0
    tree_state := TreeState.init
    prepare_flags := 0
    root := none
    profiling_enabled := profiling }

/-- The diagnostic message built by `AssociateNode` when the tree is in
the wrong state. -/
def associateErrMsg (t : ExecutionTree) : String :=
  "Invalid tree state for adding a node. Current state: " ++
    toString t.tree_state.toCInt ++ " Expected states: " ++
    toString TreeState.init.toCInt ++ " or " ++
    toString TreeState.building.toCInt

/-- Embeds `ExecutionTree::AssociateNode(op)`: no-op when `op->tree_ == this`;
otherwise fails unless the state is `Init` or `Building`; otherwise
enters `Building`, assigns `op->set_id(id_count_)`, increments
`id_count_`, and sets `op->set_tree(this)`.  Returns the status together
with the updated tree and the updated node. -/
def ExecutionTree.AssociateNode (t : ExecutionTree) (op : OpNode) :
    Status × ExecutionTree × OpNode :=
  if op.info.tree_is_this then
    (Status.ok, t, op)
  else if t.tree_state ≠ TreeState.init ∧ t.tree_state ≠ TreeState.building then
    (Status.error (associateErrMsg t), t, op)
  else
    let t1 := { t with tree_state := TreeState.building }
    let op1 := op.setId t1.id_count
    let t2 := { t1 with id_count := t1.id_count + 1 }
    (Status.ok, t2, op1.setTree)

/-- The diagnostic message built by `AssignRoot` when the tree is in the
wrong state. -/
def assignRootErrMsg (t : ExecutionTree) : String :=
  "Invalid tree state for assigning a root node. Current state: " ++
    toString t.tree_state.toCInt ++ " Expected state: " ++
    toString TreeState.building.toCInt

/-- Embeds `ExecutionTree::AssignRoot(op)`: fails unless the state is exactly
`Building`; associates `op` first when its id is still
`kInvalidOperatorId`; then stores it as `root_`. -/
def ExecutionTree.AssignRoot (t : ExecutionTree) (op : OpNode) :
    Status × ExecutionTree × OpNode :=
  if t.tree_state ≠ TreeState.building then
    (Status.error (assignRootErrMsg t), t, op)
  else
    match (if op.info.operator_id = kInvalidOperatorId then
            t.AssociateNode op else (Status.ok, t, op)) with
    | (Status.error e, t1, op1) => (Status.error e, t1, op1)
    | (Status.ok, t1, op1) => (Status.ok, { t1 with root := some op1 }, op1)

/-- The observable actions `Launch` performs on the external task group
and on the nodes it visits: setting a node's `state_` to
`kDeOpRunning`, spawning the operator task labelled
`"Op launched, OperatorId:" + id`, and spawning the monitor task. -/
inductive LaunchEvent where
  | setRunning : Int → LaunchEvent
  | spawnOp : Int → LaunchEvent
  | spawnMonitor : LaunchEvent
deriving DecidableEq, Repr

/-- The diagnostic message built by `Launch` when the tree is in the
wrong state. -/
def launchErrMsg (t : ExecutionTree) : String :=
  "Invalid tree state for launching tree. Current state: " ++
    toString t.tree_state.toCInt ++ " Expected state: " ++
    toString TreeState.ready.toCInt

/-- The `for (auto itr = this->begin(); itr != this->end(); ++itr)` loop
of `Launch` over the iterator's `nodes_` vector: iteration stops at the
null sentinel; each visited node has its state set to running and, when
it is not inlined, one task spawned for it. -/
def launchLoop : List (Option OpNode) → List LaunchEvent
  | [] => []
  | none :: _ => []
  | some n :: rest =>
      LaunchEvent.setRunning n.info.operator_id ::
        ((if n.info.inlined then [] else [LaunchEvent.spawnOp n.info.operator_id]) ++
          launchLoop rest)

/-- Embeds `ExecutionTree::Launch()`: fails unless the state is `Ready`;
otherwise spawns the monitor task when profiling is enabled, walks the
postorder iterator marking each node running and spawning one task per
non-inlined node, and finally sets the state to `Executing`.  The task
group's `CreateAsyncTask` is an external collaborator; its successful
spawns are reported as events. -/
def ExecutionTree.Launch (t : ExecutionTree) :
    Status × ExecutionTree × List LaunchEvent :=
  if t.tree_state ≠ TreeState.ready then
    (Status.error (launchErrMsg t), t, [])
  else
    let events :=
      (if t.profiling_enabled then [LaunchEvent.spawnMonitor] else []) ++
        launchLoop (iteratorNodes t.root)
    (Status.ok, { t with tree_state := TreeState.executing }, events)

/-- Modelled from the spec: the `BitSet` helper from `dataset/util` (not
among the sources here); the spec describes the flag merge as a bitwise
OR of the node's declared bitmask into the tree's `prepare_flags_`. -/
def BitSet (bits mask : Nat) : Nat := bits ||| mask

/-- Modelled from the spec: the `BitClear` helper from `dataset/util`
(not among the sources here); the spec describes the flag clear as a
bitwise AND-NOT, removing the node's declared bits from the tree's
`prepare_flags_`. -/
def BitClear (bits mask : Nat) : Nat := Nat.ldiff bits mask

mutual
/-- Embeds `ExecutionTree::PrepareNode(op)`: runs the node's
`PrepareNodePreAction` hook, ORs the node's `PrepareFlags()` into the
tree's `prepare_flags_`, recurses into each child in stored order, runs
the node's `PrepareNodePostAction` hook, and finally clears the node's
declared bits from `prepare_flags_`.  Every step is fail-fast.  The
function takes and returns the `prepare_flags_` value (the only tree
field this walk touches). -/
def ExecutionTree.PrepareNode (flags : Nat) (n : OpNode) : Status × Nat :=
  match n with
  | .mk i cs =>
    match i.pre_status with
    | Status.error e => (Status.error e, flags)
    | Status.ok =>
      let f1 := BitSet flags i.prep_flags
      match ExecutionTree.prepareNodeChildren f1 cs with
      | (Status.error e, f2) => (Status.error e, f2)
      | (Status.ok, f2) =>
        match i.post_status with
        | Status.error e => (Status.error e, f2)
        | Status.ok => (Status.ok, BitClear f2 i.prep_flags)
termination_by sizeOf n
decreasing_by
  all_goals simp_wf
  all_goals omega

/-- The `for (const auto &i : dataset_op->child_)` loop of
`PrepareNode`, fail-fast over the children in stored order. -/
def ExecutionTree.prepareNodeChildren (flags : Nat) (cs : List OpNode) :
    Status × Nat :=
  match cs with
  | [] => (Status.ok, flags)
  | c :: rest =>
    match ExecutionTree.PrepareNode flags c with
    | (Status.error e, f) => (Status.error e, f)
    | (Status.ok, f) => ExecutionTree.prepareNodeChildren f rest
termination_by sizeOf cs
decreasing_by
  all_goals simp_wf
  all_goals omega
end

/-- The `for (auto &pass : pre_actions)` loop of
`PrepareTreePreAction`: applies each pass in registration order,
fail-fast.  A rewrite pass is an external collaborator
(`Pass::Run(tree, &modified)` may restructure the tree), modelled as a
function from the tree to a status and an updated tree. -/
def runPasses (ps : List (ExecutionTree → Status × ExecutionTree))
    (t : ExecutionTree) : Status × ExecutionTree :=
  match ps with
  | [] => (Status.ok, t)
  | p :: rest =>
    match p t with
    | (Status.error e, t1) => (Status.error e, t1)
    | (Status.ok, t1) => runPasses rest t1

/-- Embeds `ExecutionTree::PrepareTreePreAction()`: builds the pre-action pass
list (a single `RemovalPass`, an external collaborator passed in as
`removalPass`) and applies it fail-fast. -/
def ExecutionTree.PrepareTreePreAction
    (removalPass : ExecutionTree → Status × ExecutionTree)
    (t : ExecutionTree) : Status × ExecutionTree :=
  runPasses [removalPass] t

/-- Embeds `ExecutionTree::Optimize()`: the optimization pass invocations are
commented out in the source; the method returns OK without touching the
tree. -/
def ExecutionTree.Optimize (t : ExecutionTree) : Status × ExecutionTree :=
  (Status.ok, t)

/-- Embeds `ExecutionTree::PrepareTreePostAction()`: unconditionally sets the
tree state to `kDeTStatePrepare` and returns OK. -/
def ExecutionTree.PrepareTreePostAction (t : ExecutionTree) :
    Status × ExecutionTree :=
  (Status.ok, { t with tree_state := TreeState.prepare })

/-- The diagnostic message built by `PrepareDeprecated` when the tree is
in the wrong state. -/
def prepareDeprecatedErrMsg (t : ExecutionTree) : String :=
  "Invalid tree state for preparing the tree. Current state: " ++
    toString t.tree_state.toCInt ++ " Expected state: " ++
    toString TreeState.prepare.toCInt

/-- Embeds `ExecutionTree::PrepareDeprecated()`: fails unless the state is
`Prepare`; otherwise runs the recursive `PrepareNode` walk from `root_`
and, when the walk succeeds, sets the state to `Ready`.  When `root_` is
null the C++ walk dereferences a null pointer (`PrepareNode` immediately
calls a method on its argument), so that case is modelled as `none`
(undefined behaviour, no result). -/
def ExecutionTree.PrepareDeprecated (t : ExecutionTree) :
    Option (Status × ExecutionTree) :=
  if t.tree_state ≠ TreeState.prepare then
    some (Status.error (prepareDeprecatedErrMsg t), t)
  else
    match t.root with
    | none => none
    | some r =>
      match ExecutionTree.PrepareNode t.prepare_flags r with
      | (Status.error e, f) => some (Status.error e, { t with prepare_flags := f })
      | (Status.ok, f) =>
          some (Status.ok,
            { t with prepare_flags := f, tree_state := TreeState.ready })

/-- Embeds `ExecutionTree::Prepare()`: `PrepareTreePreAction`, then
`Optimize`, then `PrepareTreePostAction`, then `PrepareDeprecated`, each
guarded by `RETURN_IF_NOT_OK` (fail-fast).  `removalPass` is the
external `RemovalPass` collaborator used by the pre-action phase.  The
result is `none` exactly when control reaches the legacy walk with a
null root (see `PrepareDeprecated`). -/
def ExecutionTree.Prepare
    (removalPass : ExecutionTree → Status × ExecutionTree)
    (t : ExecutionTree) : Option (Status × ExecutionTree) :=
  match ExecutionTree.PrepareTreePreAction removalPass t with
  | (Status.error e, t1) => some (Status.error e, t1)
  | (Status.ok, t1) =>
    match ExecutionTree.Optimize t1 with
    | (Status.error e, t2) => some (Status.error e, t2)
    | (Status.ok, t2) =>
      match ExecutionTree.PrepareTreePostAction t2 with
      | (Status.error e, t3) => some (Status.error e, t3)
      | (Status.ok, t3) => ExecutionTree.PrepareDeprecated t3

/-- Postorder of an optional root: empty for null. -/
def postOrderOpt : Option OpNode → List OpNode
  | none => []
  | some n => postOrder n

/-- The operator ids of the operator tasks spawned in an event list, in
spawn order (the monitor task and the node-state updates are not
operator-task spawns). -/
def opSpawnIds (evs : List LaunchEvent) : List Int :=
  evs.filterMap fun e =>
    match e with
    | LaunchEvent.spawnOp i => some i
    | _ => none

/-- The operator ids marked running in an event list, in visit order. -/
def runningIds (evs : List LaunchEvent) : List Int :=
  evs.filterMap fun e =>
    match e with
    | LaunchEvent.setRunning i => some i
    | _ => none

/-- A sequence of `AssociateNode` calls, one per listed node, in order;
returns the final tree and, per call, the status and the node as the call
left it. -/
def associateAll (t : ExecutionTree) (ops : List OpNode) :
    ExecutionTree × List (Status × OpNode) :=
  match ops with
  | [] => (t, [])
  | op :: rest =>
    let r := t.AssociateNode op
    let rr := associateAll r.2.1 rest
    (rr.1, (r.1, r.2.2) :: rr.2)

/-! Concrete fixtures used to instantiate the theorems below. -/

/-- A fresh operator node: invalid id, no tree back-reference, default
attributes, no children. -/
def opFresh : OpNode := OpNode.mk {} []

/-- An operator node already owned by this tree. -/
def opOwned : OpNode :=
  OpNode.mk { operator_id := 0, tree_is_this := true } []

/-- Example tree for the postorder traversal: root `exR` with children
`[exA, exB]`, where `exA` has child `[exC]`. -/
def exC : OpNode := OpNode.mk { operator_id := 10 } []

/-- See `exC`. -/
def exA : OpNode := OpNode.mk { operator_id := 11 } [exC]

/-- See `exC`. -/
def exB : OpNode := OpNode.mk { operator_id := 12 } []

/-- See `exC`. -/
def exR : OpNode := OpNode.mk { operator_id := 13 } [exA, exB]

/-- Launch example: non-inlined leaf of a 3-level tree. -/
def exLeaf : OpNode :=
  OpNode.mk { operator_id := 2, tree_is_this := true, inlined := false } []

/-- Launch example: inlined middle node. -/
def exMid : OpNode :=
  OpNode.mk { operator_id := 1, tree_is_this := true, inlined := true } [exLeaf]

/-- Launch example: non-inlined root. -/
def exRoot : OpNode :=
  OpNode.mk { operator_id := 0, tree_is_this := true, inlined := false } [exMid]

/-- Launch example: a tree in state `Ready` whose root is `exRoot` (two
non-inlined nodes, one inlined node, profiling disabled). -/
def tLaunchEx : ExecutionTree :=
  { id_count := 3
    tree_state := TreeState.ready
    prepare_flags := 0
    root := some exRoot
    profiling_enabled := false }

/-- Prepare-flags example: node `Y`, declaring bit 0, no children. -/
def nodeY : OpNode := OpNode.mk { prep_flags := 1 } []

/-- Prepare-flags example: node `X`, declaring the same bit 0, with the
single child `nodeY`. -/
def nodeX : OpNode := OpNode.mk { prep_flags := 1 } [nodeY]

/-- A rewrite pass that succeeds without modifying the tree. -/
def okPass : ExecutionTree → Status × ExecutionTree :=
  fun t => (Status.ok, t)

/-- A rewrite pass that fails without modifying the tree. -/
def failPass : ExecutionTree → Status × ExecutionTree :=
  fun t => (Status.error "pre pass failed", t)

/-- A freshly constructed tree (profiling disabled). -/
def t0ex : ExecutionTree := ExecutionTree.new false

/-- The tree and node after `AssociateNode(opFresh)` on `t0ex`. -/
def t1ex : ExecutionTree := (t0ex.AssociateNode opFresh).2.1

/-- See `t1ex`. -/
def op1ex : OpNode := (t0ex.AssociateNode opFresh).2.2

/-- The tree after `AssignRoot(op1ex)` on `t1ex`. -/
def t2ex : ExecutionTree := (t1ex.AssignRoot op1ex).2.1

/-- The tree after a successful `Prepare()` on `t2ex` (state `Ready`). -/
def t3ex : ExecutionTree :=
  ((t2ex.Prepare okPass).getD (Status.ok, t2ex)).2

/-- The tree after `Launch()` on `t3ex` (state `Executing`). -/
def t4ex : ExecutionTree := (t3ex.Launch).2.1

/-- The tree after a second `Prepare()`, called on the executing tree
`t4ex`. -/
def t5ex : ExecutionTree :=
  ((t4ex.Prepare okPass).getD (Status.ok, t4ex)).2

/-- A tree sitting in state `Prepare` with a trivial root, ready for the
legacy walk. -/
def tPrepEx : ExecutionTree :=
  { id_count := 1
    tree_state := TreeState.prepare
    prepare_flags := 0
    root := some opOwned
    profiling_enabled := false }

/-! Helper lemmas. -/

mutual
/-- The iterator's accumulator-based traversal visits exactly the
specified postorder: children left-to-right, then the node. -/
theorem PostOrderTraverse_eq (n : OpNode) (acc : List OpNode) :
    PostOrderTraverse (some n) acc = acc ++ postOrder n := by
  cases n with
  | mk i cs =>
    rw [PostOrderTraverse, postOrder, postOrderChildren_eq cs acc,
      List.append_assoc]
termination_by sizeOf n
decreasing_by
  all_goals simp_wf
  all_goals omega

/-- The child loop of the traversal appends the concatenated postorders
of the children. -/
theorem postOrderChildren_eq (cs : List OpNode) (acc : List OpNode) :
    postOrderChildren cs acc = acc ++ postOrderList cs := by
  cases cs with
  | nil => rw [postOrderChildren, postOrderList, List.append_nil]
  | cons c rest =>
    rw [postOrderChildren, postOrderList, PostOrderTraverse_eq c acc,
      postOrderChildren_eq rest (acc ++ postOrder c), List.append_assoc]
termination_by sizeOf cs
decreasing_by
  all_goals simp_wf
  all_goals omega
end

/-- The operator tasks spawned while walking the iterator's node vector
are exactly one per non-inlined visited node, in visit order. -/
theorem opSpawnIds_launchLoop (l : List OpNode) :
    opSpawnIds (launchLoop (l.map some ++ [none])) =
      (l.filter fun n => !n.info.inlined).map fun n => n.info.operator_id := by
  induction l with
  | nil => rfl
  | cons c l ih =>
    by_cases hc : c.info.inlined
    · simp [launchLoop, opSpawnIds, hc, List.filter_cons] at ih ⊢
      exact ih
    · simp [launchLoop, opSpawnIds, hc, List.filter_cons] at ih ⊢
      exact ih

/-- Every node visited while walking the iterator's node vector is
marked running, in visit order. -/
theorem runningIds_launchLoop (l : List OpNode) :
    runningIds (launchLoop (l.map some ++ [none])) =
      l.map fun n => n.info.operator_id := by
  induction l with
  | nil => rfl
  | cons c l ih =>
    by_cases hc : c.info.inlined <;>
      · simp [launchLoop, runningIds, hc] at ih ⊢
        exact ih

/-- The monitor spawn contributes no operator-task spawn. -/
theorem opSpawnIds_monitor (evs : List LaunchEvent) :
    opSpawnIds (LaunchEvent.spawnMonitor :: evs) = opSpawnIds evs := by
  simp [opSpawnIds]

/-- The monitor spawn marks no node running. -/
theorem runningIds_monitor (evs : List LaunchEvent) :
    runningIds (LaunchEvent.spawnMonitor :: evs) = runningIds evs := by
  simp [runningIds]

/-! Claim theorems. -/

/-- C10: constructing the postorder iterator from a null root is safe:
`PostOrderTraverse` returns its accumulator untouched on a null node, and
the constructed `nodes_` vector is exactly the single null end
sentinel, so iteration terminates immediately at the end marker. -/
theorem Iterator_null_root_safe :
    iteratorNodes none = [none] ∧
      ∀ acc : List OpNode, PostOrderTraverse none acc = acc := by
  constructor
  · simp [iteratorNodes, PostOrderTraverse]
  · intro acc
    simp [PostOrderTraverse]

/-- C3: the postorder iterator built from a root visits, for each node,
all of its children left-to-right (in stored child order) before the node
itself, and the produced sequence is terminated by a single null end
sentinel; in particular, for root `exR` with children `[exA, exB]` where
`exA` has child `[exC]`, the visited sequence is exactly
`exC, exA, exB, exR`. -/
theorem Iterator_postorder_children_first :
    (∀ r : OpNode,
        iteratorNodes (some r) = (postOrder r).map some ++ [none]) ∧
    iteratorNodes (some exR) =
      [some exC, some exA, some exB, some exR, none] := by
  constructor
  · intro r
    rw [iteratorNodes, PostOrderTraverse_eq]
    simp
  · simp [iteratorNodes, PostOrderTraverse_eq, exR, exA, exB, exC,
      postOrder, postOrderList]

/-- C9: `AssociateNode` is a no-op success when the node already belongs
to this tree: the status is OK and neither the node (id, back-reference)
nor the tree (state, counter) changes. -/
theorem AssociateNode_idempotent (t : ExecutionTree) (op : OpNode)
    (h : op.info.tree_is_this = true) :
    t.AssociateNode op = (Status.ok, t, op) := by
  simp [ExecutionTree.AssociateNode, h]

/-- Witness for C9 at a concrete already-associated node. -/
theorem AssociateNode_idempotent_witness :
    opOwned.info.tree_is_this = true ∧
    t0ex.AssociateNode opOwned = (Status.ok, t0ex, opOwned) :=
  ⟨by decide, AssociateNode_idempotent t0ex opOwned (by decide)⟩

/-- C7: `AssignRoot` fails with the invalid-state diagnostic (carrying
the observed and the expected state) whenever the tree state is not
exactly `Building`, and in that case the tree (in particular `root_`)
and the node (id, tree back-reference) are returned unmodified. -/
theorem AssignRoot_invalid_state (t : ExecutionTree) (op : OpNode)
    (h : t.tree_state ≠ TreeState.building) :
    t.AssignRoot op = (Status.error (assignRootErrMsg t), t, op) := by
  simp [ExecutionTree.AssignRoot, h]

/-- Witness for C7 on a freshly constructed tree (state `Init`). -/
theorem AssignRoot_invalid_state_witness :
    t0ex.tree_state = TreeState.init ∧
    t0ex.AssignRoot opFresh =
      (Status.error (assignRootErrMsg t0ex), t0ex, opFresh) :=
  ⟨rfl, AssignRoot_invalid_state t0ex opFresh (by decide)⟩

/-- C8: `Launch` invoked while the tree state is not `Ready` fails with
the invalid-state diagnostic, spawns no tasks (the event list is empty,
so no node state changes either), and returns the tree unchanged. -/
theorem Launch_invalid_state (t : ExecutionTree)
    (h : t.tree_state ≠ TreeState.ready) :
    t.Launch = (Status.error (launchErrMsg t), t, []) := by
  simp [ExecutionTree.Launch, h]

/-- Witness for C8: a second `Launch` on the tree left by a successful
first `Launch` (state `Executing`) fails and spawns nothing. -/
theorem Launch_invalid_state_witness :
    (tLaunchEx.Launch).2.1.tree_state = TreeState.executing ∧
    ((tLaunchEx.Launch).2.1).Launch =
      (Status.error (launchErrMsg (tLaunchEx.Launch).2.1),
        (tLaunchEx.Launch).2.1, []) :=
  ⟨rfl, Launch_invalid_state ((tLaunchEx.Launch).2.1) (by decide)⟩

/-- C4: when the pre-action pass fails, `Prepare` surfaces that exact
failure with the tree exactly as the pass left it: the optimization
phase, the post-action phase (so the state is not set to `Prepare`), and
the legacy walk are never executed. -/
theorem Prepare_preaction_failfast
    (removalPass : ExecutionTree → Status × ExecutionTree)
    (t t' : ExecutionTree) (e : String)
    (h : removalPass t = (Status.error e, t')) :
    ExecutionTree.Prepare removalPass t = some (Status.error e, t') := by
  simp [ExecutionTree.Prepare, ExecutionTree.PrepareTreePreAction,
    runPasses, h]

/-- Witness for C4 with a concrete failing pre-action pass. -/
theorem Prepare_preaction_failfast_witness :
    failPass t0ex = (Status.error "pre pass failed", t0ex) ∧
    ExecutionTree.Prepare failPass t0ex =
      some (Status.error "pre pass failed", t0ex) :=
  ⟨rfl, Prepare_preaction_failfast failPass t0ex t0ex "pre pass failed" rfl⟩

/-- C1: a sequence of `AssociateNode` calls on not-yet-associated nodes,
starting from a tree in state `Init` or `Building`, succeeds throughout;
the k-th call assigns id `id_count_ + k` (each call hands out the current
counter and increments it), so the assigned ids form the strictly
increasing run `id_count_, id_count_ + 1, ...` — from a fresh tree,
exactly `0, 1, 2, ...` — and the state is `Building` afterwards (the
first success moves `Init` to `Building`). -/
theorem AssociateNode_sequence_ids (t : ExecutionTree) (ops : List OpNode)
    (hfresh : ∀ op ∈ ops, op.info.tree_is_this = false)
    (hst : t.tree_state = TreeState.init ∨ t.tree_state = TreeState.building) :
    (associateAll t ops).2.map Prod.fst =
      List.replicate ops.length Status.ok ∧
    (associateAll t ops).2.map (fun r => r.2.info.operator_id) =
      (List.range ops.length).map (fun k => t.id_count + Int.ofNat k) ∧
    (associateAll t ops).1.id_count = t.id_count + Int.ofNat ops.length ∧
    (ops ≠ [] → (associateAll t ops).1.tree_state = TreeState.building) := by
  induction ops generalizing t with
  | nil => simp [associateAll]
  | cons op rest ih =>
    have hop : op.info.tree_is_this = false := hfresh op (by simp)
    have hstep : t.AssociateNode op =
        (Status.ok,
          { t with tree_state := TreeState.building,
                   id_count := t.id_count + 1 },
          (op.setId t.id_count).setTree) := by
      rcases hst with h | h <;> simp [ExecutionTree.AssociateNode, hop, h]
    obtain ⟨ih1, ih2, ih3, ih4⟩ :=
      ih { t with tree_state := TreeState.building,
                  id_count := t.id_count + 1 }
        (fun o ho => hfresh o (List.mem_cons_of_mem _ ho)) (Or.inr rfl)
    refine ⟨?_, ?_, ?_, ?_⟩
    · simp [associateAll, hstep, ih1, List.replicate_succ]
    · have hid : ((op.setId t.id_count).setTree).info.operator_id =
          t.id_count := by
        simp [OpNode.setId, OpNode.setTree, OpNode.info]
      simp only [associateAll, hstep, List.map_cons, List.length_cons, hid]
      rw [ih2, List.range_succ_eq_map, List.map_cons, List.map_map]
      congr 1
      · simp
      · apply List.map_congr_left
        intro k _
        simp only [Function.comp_apply, Int.ofNat_eq_coe,
          Nat.succ_eq_add_one]
        push_cast
        ring
    · simp only [associateAll, hstep, List.length_cons]
      rw [ih3]
      simp only [Int.ofNat_eq_coe]
      push_cast
      ring
    · intro _
      cases rest with
      | nil => simp [associateAll, hstep]
      | cons r rs =>
        simp only [associateAll, hstep]
        exact ih4 (by simp)

/-- Witness for C1: three fresh nodes associated with a fresh tree get
ids 0, 1, 2; the counter ends at 3 and the state at `Building`. -/
theorem AssociateNode_sequence_ids_witness :
    (associateAll t0ex [opFresh, opFresh, opFresh]).2.map
        (fun r => r.2.info.operator_id) = [0, 1, 2] ∧
    (associateAll t0ex [opFresh, opFresh, opFresh]).1.id_count = 3 ∧
    (associateAll t0ex [opFresh, opFresh, opFresh]).1.tree_state =
      TreeState.building := by
  obtain ⟨h1, h2, h3, h4⟩ :=
    AssociateNode_sequence_ids t0ex [opFresh, opFresh, opFresh]
      (by decide) (Or.inl rfl)
  refine ⟨?_, ?_, h4 (by simp)⟩
  · rw [h2]
    simp [t0ex, ExecutionTree.new, List.range_succ]
  · rw [h3]
    simp [t0ex, ExecutionTree.new]

/-- C2: `Launch` from state `Ready` succeeds, marks every node of the
tree running in postorder, spawns exactly one operator task per
non-inlined node (labelled with that node's id, children before
parents, in postorder) and none for inlined nodes, and finally sets the
tree state to `Executing`. -/
theorem Launch_spawns_postorder (t : ExecutionTree)
    (h : t.tree_state = TreeState.ready) :
    (t.Launch).1 = Status.ok ∧
    (t.Launch).2.1 = { t with tree_state := TreeState.executing } ∧
    opSpawnIds (t.Launch).2.2 =
      ((postOrderOpt t.root).filter fun n => !n.info.inlined).map
        (fun n => n.info.operator_id) ∧
    runningIds (t.Launch).2.2 =
      (postOrderOpt t.root).map fun n => n.info.operator_id := by
  have hiter : PostOrderTraverse t.root [] = postOrderOpt t.root := by
    cases t.root with
    | none => simp [PostOrderTraverse, postOrderOpt]
    | some r => simp [PostOrderTraverse_eq, postOrderOpt]
  by_cases hp : t.profiling_enabled <;>
    refine ⟨?_, ?_, ?_, ?_⟩ <;>
      simp [ExecutionTree.Launch, h, hp, iteratorNodes, hiter,
        opSpawnIds_monitor, runningIds_monitor, opSpawnIds_launchLoop,
        runningIds_launchLoop]

/-- Witness for C2: launching the 3-level example tree (two non-inlined
nodes, one inlined) spawns exactly the two operator tasks for the leaf
and the root, in postorder, marks all three nodes running, and moves the
tree to `Executing`. -/
theorem Launch_spawns_postorder_witness :
    tLaunchEx.tree_state = TreeState.ready ∧
    opSpawnIds (tLaunchEx.Launch).2.2 = [2, 0] ∧
    runningIds (tLaunchEx.Launch).2.2 = [2, 1, 0] ∧
    (tLaunchEx.Launch).2.1.tree_state = TreeState.executing := by
  obtain ⟨h1, h2, h3, h4⟩ := Launch_spawns_postorder tLaunchEx rfl
  refine ⟨rfl, ?_, ?_, by rw [h2]⟩
  · rw [h3]
    simp [tLaunchEx, postOrderOpt, postOrder, postOrderList, exRoot,
      exMid, exLeaf, OpNode.info]
  · rw [h4]
    simp [tLaunchEx, postOrderOpt, postOrder, postOrderList, exRoot,
      exMid, exLeaf, OpNode.info]

/-- C5 counterexample: with `nodeX` declaring prepare-flag bit 0 and its
child `nodeY` declaring the same bit, the walk of `nodeY` (started from
the flags value left by `nodeX`'s `BitSet`, namely `BitSet 0 1 = 1`)
succeeds, yet after `nodeY`'s post-action clear the bitmask does NOT
still have bit 0 set — `BitClear` removes the bit by value, losing the
ancestor's contribution. -/
theorem PrepareNode_shared_bit_counterexample :
    (ExecutionTree.PrepareNode (BitSet 0 nodeX.info.prep_flags) nodeY).1 =
      Status.ok ∧
    ¬ ((ExecutionTree.PrepareNode
          (BitSet 0 nodeX.info.prep_flags) nodeY).2.testBit 0 = true) := by
  have h : ExecutionTree.PrepareNode (BitSet 0 nodeX.info.prep_flags) nodeY =
      (Status.ok, BitClear (BitSet (BitSet 0 1) 1) 1) := by
    simp [nodeX, nodeY, OpNode.info, ExecutionTree.PrepareNode,
      ExecutionTree.prepareNodeChildren]
  rw [h]
  refine ⟨rfl, ?_⟩
  simp only [BitClear, Nat.testBit_ldiff]
  decide

/-- Helper for C5 (amended): a successful `PrepareNode` walk always ends
with `BitClear` of the node's own declared bits. -/
theorem PrepareNode_ok_shape (flags : Nat) (n : OpNode)
    (hok : (ExecutionTree.PrepareNode flags n).1 = Status.ok) :
    ∃ f2, ExecutionTree.PrepareNode flags n =
      (Status.ok, BitClear f2 n.info.prep_flags) := by
  cases n with
  | mk i cs =>
    rw [ExecutionTree.PrepareNode] at hok ⊢
    cases hpre : i.pre_status with
    | error e => simp [hpre] at hok
    | ok =>
      simp only [hpre] at hok ⊢
      cases hch : ExecutionTree.prepareNodeChildren (BitSet flags i.prep_flags) cs with
      | mk s f2 =>
        cases s with
        | error e => simp [hch] at hok
        | ok =>
          cases hpost : i.post_status with
          | error e => simp [hch, hpost] at hok
          | ok =>
            refine ⟨f2, ?_⟩
            simp [hch, hpost, OpNode.info]

/-- C5 (amended): in the legacy recursive prepare walk, whenever a node
Y's walk succeeds, every prepare-flag bit Y declares is cleared from the
returned `prepare_flags_` — including a bit an ancestor X also declared:
the clearing is by bit value, unconditional, so an ancestor's
contribution to a shared bit is NOT preserved after the descendant's
post-action clear. -/
theorem PrepareNode_clears_declared_bits (flags : Nat) (n : OpNode)
    (b : Nat)
    (hok : (ExecutionTree.PrepareNode flags n).1 = Status.ok)
    (hbit : n.info.prep_flags.testBit b = true) :
    (ExecutionTree.PrepareNode flags n).2.testBit b = false := by
  obtain ⟨f2, hf⟩ := PrepareNode_ok_shape flags n hok
  rw [hf]
  simp [BitClear, Nat.testBit_ldiff, hbit]

/-- Witness for the amended C5 at the concrete `nodeX`/`nodeY` pair:
bit 0, declared by both, is cleared after `nodeY`'s successful walk. -/
theorem PrepareNode_clears_declared_bits_witness :
    nodeY.info.prep_flags.testBit 0 = true ∧
    (ExecutionTree.PrepareNode (BitSet 0 nodeX.info.prep_flags) nodeY).2.testBit 0 =
      false := by
  constructor
  · decide
  · apply PrepareNode_clears_declared_bits
    · simp [nodeX, nodeY, OpNode.info, ExecutionTree.PrepareNode,
        ExecutionTree.prepareNodeChildren, BitSet, BitClear]
    · decide

/-- Clearing no bits leaves the bitmask unchanged. -/
theorem ldiff_zero (n : Nat) : Nat.ldiff n 0 = n := by
  apply Nat.eq_of_testBit_eq
  intro i
  simp [Nat.testBit_ldiff]

/-- Helper for C6: `AssociateNode` on a tree in state `Building` leaves
it in state `Building`. -/
theorem AssociateNode_state_building (t : ExecutionTree) (op : OpNode)
    (hb : t.tree_state = TreeState.building) :
    (t.AssociateNode op).2.1.tree_state = TreeState.building := by
  simp only [ExecutionTree.AssociateNode]
  split_ifs with h1 h2
  · exact hb
  · exact absurd hb h2.2
  · rfl

/-- Helper for C6: `AssignRoot` never changes the tree state. -/
theorem AssignRoot_preserves_state (t : ExecutionTree) (op : OpNode) :
    (t.AssignRoot op).2.1.tree_state = t.tree_state := by
  by_cases h1 : t.tree_state ≠ TreeState.building
  · simp [ExecutionTree.AssignRoot, h1]
  · have hb : t.tree_state = TreeState.building := not_not.mp h1
    by_cases hid : op.info.operator_id = kInvalidOperatorId
    · have hs := AssociateNode_state_building t op hb
      simp only [ExecutionTree.AssignRoot]
      rw [if_neg h1, if_pos hid]
      rcases hA : t.AssociateNode op with ⟨s, t1, op1⟩
      rw [hA] at hs
      simp only at hs
      cases s with
      | error e => simpa [hb] using hs
      | ok => simpa [hb] using hs
    · simp only [ExecutionTree.AssignRoot]
      rw [if_neg h1, if_neg hid]

/-- C6 (amended): the tree lifecycle state never moves backward in the
order `Init, Building, Prepare, Ready, Executing` under `AssociateNode`,
`AssignRoot`, `PrepareDeprecated` or `Launch` — but the claim's blanket
statement fails for `Prepare`'s post-action sub-phase:
`PrepareTreePostAction` sets the state to `Prepare` unconditionally,
which moves the state backward whenever it was already `Ready` or
`Executing`. -/
theorem tree_state_forward_except_postaction :
    (∀ (t : ExecutionTree) (op : OpNode),
        t.tree_state.order ≤ (t.AssociateNode op).2.1.tree_state.order) ∧
    (∀ (t : ExecutionTree) (op : OpNode),
        t.tree_state.order ≤ (t.AssignRoot op).2.1.tree_state.order) ∧
    (∀ (t : ExecutionTree) (r : Status × ExecutionTree),
        t.PrepareDeprecated = some r →
          t.tree_state.order ≤ r.2.tree_state.order) ∧
    (∀ t : ExecutionTree,
        t.tree_state.order ≤ (t.Launch).2.1.tree_state.order) ∧
    (∀ t : ExecutionTree,
        (t.PrepareTreePostAction).2.tree_state = TreeState.prepare) := by
  refine ⟨?_, ?_, ?_, ?_, ?_⟩
  · intro t op
    simp only [ExecutionTree.AssociateNode]
    split_ifs with h1 h2
    · exact le_refl _
    · exact le_refl _
    · rcases not_and_or.mp h2 with h | h
      · have h' : t.tree_state = TreeState.init := not_not.mp h
        simp [h', TreeState.order]
      · have h' : t.tree_state = TreeState.building := not_not.mp h
        simp [h', TreeState.order]
  · intro t op
    rw [AssignRoot_preserves_state]
  · intro t r h
    by_cases h1 : t.tree_state ≠ TreeState.prepare
    · simp only [ExecutionTree.PrepareDeprecated, if_pos h1,
        Option.some.injEq] at h
      rw [← h]
    · have hp : t.tree_state = TreeState.prepare := not_not.mp h1
      rcases hroot : t.root with _ | rt
      · simp [ExecutionTree.PrepareDeprecated, h1, hroot] at h
      · rcases hw : ExecutionTree.PrepareNode t.prepare_flags rt with ⟨s, f⟩
        cases s with
        | error e =>
          simp [ExecutionTree.PrepareDeprecated, h1, hroot, hw] at h
          rw [← h]
        | ok =>
          simp [ExecutionTree.PrepareDeprecated, h1, hroot, hw] at h
          rw [← h, hp]
          simp [TreeState.order]
  · intro t
    by_cases h1 : t.tree_state ≠ TreeState.ready
    · simp [ExecutionTree.Launch, h1]
    · have h' : t.tree_state = TreeState.ready := not_not.mp h1
      simp [ExecutionTree.Launch, h', TreeState.order]
  · intro t
    rfl

/-- Witness for the amended C6, applying the `PrepareDeprecated`
conjunct at the concrete tree `tPrepEx` (state `Prepare`, trivial
root): the legacy walk moves it forward to `Ready`. -/
theorem tree_state_forward_except_postaction_witness :
    tPrepEx.PrepareDeprecated =
      some (Status.ok,
        { tPrepEx with prepare_flags := 0, tree_state := TreeState.ready }) ∧
    TreeState.order tPrepEx.tree_state ≤
      TreeState.order
        ({ tPrepEx with prepare_flags := 0, tree_state := TreeState.ready }
          : ExecutionTree).tree_state := by
  have hd : tPrepEx.PrepareDeprecated =
      some (Status.ok,
        { tPrepEx with prepare_flags := 0, tree_state := TreeState.ready }) := by
    simp [tPrepEx, opOwned, ExecutionTree.PrepareDeprecated,
      ExecutionTree.PrepareNode, ExecutionTree.prepareNodeChildren,
      OpNode.info, BitSet, BitClear, ldiff_zero]
  exact ⟨hd, tree_state_forward_except_postaction.2.2.1 tPrepEx _ hd⟩

/-- C6 counterexample: the public-operation sequence `AssociateNode`,
`AssignRoot`, `Prepare`, `Launch` drives a fresh tree forward to
`Executing`; a second `Prepare` call then succeeds and leaves the tree in
state `Ready` — the state moved backward from `Executing` (via the
post-action phase's unconditional reset to `Prepare`), contradicting the
claim that no operation ever moves the state to an earlier position. -/
theorem tree_state_backward_counterexample :
    (t0ex.AssociateNode opFresh).1 = Status.ok ∧
    (t1ex.AssignRoot op1ex).1 = Status.ok ∧
    t2ex.Prepare okPass = some (Status.ok, t3ex) ∧
    (t3ex.Launch).1 = Status.ok ∧
    t4ex.tree_state = TreeState.executing ∧
    t4ex.Prepare okPass = some (Status.ok, t5ex) ∧
    t5ex.tree_state = TreeState.ready ∧
    t5ex.tree_state.order < t4ex.tree_state.order := by
  have hop1 : op1ex =
      OpNode.mk { operator_id := 0, tree_is_this := true } [] := rfl
  have ht2 : t2ex =
      { id_count := 1, tree_state := TreeState.building, prepare_flags := 0,
        root := some (OpNode.mk { operator_id := 0, tree_is_this := true } []),
        profiling_enabled := false } := rfl
  have hPN : ExecutionTree.PrepareNode 0
      (OpNode.mk { operator_id := 0, tree_is_this := true } []) =
      (Status.ok, 0) := by
    simp [ExecutionTree.PrepareNode, ExecutionTree.prepareNodeChildren,
      OpNode.info, BitSet, BitClear, ldiff_zero]
  have hPrep2 : t2ex.Prepare okPass =
      some (Status.ok,
        { id_count := 1, tree_state := TreeState.ready, prepare_flags := 0,
          root := some (OpNode.mk { operator_id := 0, tree_is_this := true } []),
          profiling_enabled := false }) := by
    rw [ht2]
    simp [ExecutionTree.Prepare, ExecutionTree.PrepareTreePreAction,
      ExecutionTree.Optimize, ExecutionTree.PrepareTreePostAction,
      ExecutionTree.PrepareDeprecated, runPasses, okPass, hPN]
  have ht3 : t3ex =
      { id_count := 1, tree_state := TreeState.ready, prepare_flags := 0,
        root := some (OpNode.mk { operator_id := 0, tree_is_this := true } []),
        profiling_enabled := false } := by
    simp only [t3ex, hPrep2]
    rfl
  have ht4 : t4ex =
      { id_count := 1, tree_state := TreeState.executing, prepare_flags := 0,
        root := some (OpNode.mk { operator_id := 0, tree_is_this := true } []),
        profiling_enabled := false } := by
    simp only [t4ex, ht3]
    rfl
  have hPrep4 : t4ex.Prepare okPass =
      some (Status.ok,
        { id_count := 1, tree_state := TreeState.ready, prepare_flags := 0,
          root := some (OpNode.mk { operator_id := 0, tree_is_this := true } []),
          profiling_enabled := false }) := by
    rw [ht4]
    simp [ExecutionTree.Prepare, ExecutionTree.PrepareTreePreAction,
      ExecutionTree.Optimize, ExecutionTree.PrepareTreePostAction,
      ExecutionTree.PrepareDeprecated, runPasses, okPass, hPN]
  have ht5 : t5ex =
      { id_count := 1, tree_state := TreeState.ready, prepare_flags := 0,
        root := some (OpNode.mk { operator_id := 0, tree_is_this := true } []),
        profiling_enabled := false } := by
    simp only [t5ex, hPrep4]
    rfl
  refine ⟨rfl, rfl, ?_, ?_, ?_, ?_, ?_, ?_⟩
  · rw [hPrep2, ht3]
  · rw [ht3]
    rfl
  · rw [ht4]
  · rw [hPrep4, ht5]
  · rw [ht5]
  · rw [ht4, ht5]
    decide

end MindsporeDataset
